/-
Verification of the SMB Operations backend (FastAPI + MongoDB document store)
against its natural-language specification.

Shallow embedding conventions:
* Python floats are modelled as exact rationals (ℚ); `round(x, 2)` is Python's
  round-half-to-even at two decimal places (`pyRound2`).
* MongoDB collections are modelled as Lean lists of document structures, in
  insertion order.  `find_one` is `List.find?`, `count_documents` is
  `List.countP`, `insert_one` appends, `update_one`/`delete_one` act on the
  first matching document (`update_first` / `delete_first`).
* `datetime` values are modelled as a pair of an absolute month index
  (`year * 12 + month`) and an offset inside that month; the source's
  `datetime(now.year, now.month, 1, tzinfo=utc)` is `startOfMonth`.
* MongoDB ObjectIds are modelled as naturals; BSON values that may hold either
  an ObjectId, a string or null (the `created_by` field of a quote document
  after a full `$set` replace) are modelled by `BId`.
* `HTTPException(status_code, detail)` is an `Err` value; a handler that both
  touches the store and may fail returns `Except Err Resp × State`, where the
  state component is the collection after the call (unchanged on error).
* `secrets.token_urlsafe` results and fresh ObjectIds are passed in as
  explicit arguments (`tok`, `newId`): the embedding is deterministic in them.
-/
import Mathlib

namespace SMB

/-- An HTTP error: `HTTPException(status_code=..., detail=...)`. -/
structure Err where
  status : Nat
  detail : String
deriving DecidableEq, Repr

/-- `Literal["Admin", "Employee"]`. -/
inductive Role where
  | Admin
  | Employee
deriving DecidableEq, Repr

/-- A UTC instant: absolute month index (`year * 12 + month`) together with an
offset inside the month (day/time collapsed to one ordinal).  This is exactly
the structure the quota check needs: `datetime(now.year, now.month, 1)` is the
instant of the same month with offset `0`. -/
structure DateTime where
  monthIdx : Nat
  sub : Nat
deriving DecidableEq, Repr

/-- Lexicographic order on instants, as a Boolean. -/
def dtLE (a b : DateTime) : Bool :=
  a.monthIdx < b.monthIdx || (a.monthIdx == b.monthIdx && a.sub ≤ b.sub)

/-- `datetime(now.year, now.month, 1, tzinfo=timezone.utc)`: the first instant
of `now`'s UTC calendar month. -/
def startOfMonth (now : DateTime) : DateTime :=
  ⟨now.monthIdx, 0⟩

/-- A BSON value that is either an ObjectId, a string, or null: the type of a
quote document's `created_by`/`public_token` slots, which `create_quote`
writes as an ObjectId / random string but `update_quote`'s full `$set`
can overwrite with the payload's optional string. -/
inductive BId where
  | oid (n : Nat)
  | str (s : String)
  | null
deriving DecidableEq, Repr

/-- Embed a Python `Optional[str]` into a BSON slot. -/
def BId.ofOptStr : Option String → BId
  | some s => .str s
  | none => .null

/-- Python truthiness of an `Optional[str]`: `None` and `""` are falsy. -/
def truthyStr : Option String → Bool
  | none => false
  | some s => !(s == "")

/-- Python `a or b` on `Optional[str]` values. -/
def pyOr (a b : Option String) : Option String :=
  if truthyStr a then a else b

/-- Python `a or dflt` where `dflt` is a string literal (always a string). -/
def pyOrStr (a : Option String) (dflt : String) : String :=
  if truthyStr a then a.getD dflt else dflt

/-- Python banker's rounding of a rational to an integer
(`round` with no digits): round to nearest, ties to even. -/
def bankersRound (q : ℚ) : ℤ :=
  let f : ℤ := ⌊q⌋
  let r : ℚ := q - f
  if r < 1/2 then f
  else if 1/2 < r then f + 1
  else if Even f then f else f + 1

/-- Python `round(x, 2)`. -/
def pyRound2 (q : ℚ) : ℚ :=
  (bankersRound (q * 100) : ℚ) / 100

/-- `class QuoteItem(BaseModel)` from schemas.py. -/
structure QuoteItem where
  name : String
  description : Option String := none
  unit_price : ℚ
  quantity : ℚ := 1
  tax_rate : ℚ := 0
deriving DecidableEq, Repr

/--
```
def compute_quote_total(items):
    subtotal = sum(i.unit_price * i.quantity for i in items)
    tax = sum((i.unit_price * i.quantity) * (i.tax_rate / 100.0) for i in items)
    return round(subtotal + tax, 2)
```
-/
def compute_quote_total (items : List QuoteItem) : ℚ :=
  let subtotal := (items.map (fun i => i.unit_price * i.quantity)).sum
  let tax := (items.map (fun i => (i.unit_price * i.quantity) * (i.tax_rate / 100))).sum
  pyRound2 (subtotal + tax)

/-! ### Document-store primitives -/

/-- MongoDB `update_one(filter, {"$set": ...})`: rewrite the first document
matching `p` with `f`; the Boolean is `matched_count == 1`. -/
def update_first (p : α → Bool) (f : α → α) : List α → List α × Bool
  | [] => ([], false)
  | x :: xs =>
    if p x then (f x :: xs, true)
    else
      let r := update_first p f xs
      (x :: r.1, r.2)

/-- MongoDB `delete_one(filter)`: remove the first document matching `p`
(no-op when nothing matches). -/
def delete_first (p : α → Bool) : List α → List α
  | [] => []
  | x :: xs => if p x then xs else x :: delete_first p xs

theorem update_first_of_forall_not (p : α → Bool) (f : α → α) :
    ∀ l : List α, (∀ x ∈ l, p x = false) → update_first p f l = (l, false) := by
  intro l h
  induction l with
  | nil => rfl
  | cons x xs ih =>
    have hx : p x = false := h x (List.mem_cons_self x xs)
    have hxs := ih (fun y hy => h y (List.mem_cons_of_mem x hy))
    simp [update_first, hx, hxs]

theorem delete_first_of_forall_not (p : α → Bool) :
    ∀ l : List α, (∀ x ∈ l, p x = false) → delete_first p l = l := by
  intro l h
  induction l with
  | nil => rfl
  | cons x xs ih =>
    have hx : p x = false := h x (List.mem_cons_self x xs)
    have hxs := ih (fun y hy => h y (List.mem_cons_of_mem x hy))
    simp [delete_first, hx, hxs]

theorem update_first_flag_of_mem (p : α → Bool) (f : α → α) :
    ∀ l : List α, ∀ x ∈ l, p x = true → (update_first p f l).2 = true := by
  intro l
  induction l with
  | nil => intro x hx; exact absurd hx (List.not_mem_nil x)
  | cons y ys ih =>
    intro x hx hpx
    rcases List.mem_cons.mp hx with h | h
    · subst h; simp [update_first, hpx]
    · by_cases hpy : p y
      · simp [update_first, hpy]
      · simpa [update_first, hpy] using ih x h hpx

/-- When at most one position of `l` matches `p` (pairwise no two matches),
`update_one` coincides with rewriting every matching document. -/
theorem update_first_eq_map (p : α → Bool) (f : α → α) :
    ∀ l : List α, l.Pairwise (fun a b => ¬(p a = true ∧ p b = true)) →
      (update_first p f l).1 = l.map (fun y => if p y then f y else y) := by
  intro l hl
  induction l with
  | nil => rfl
  | cons y ys ih =>
    rcases List.pairwise_cons.mp hl with ⟨hy, hys⟩
    by_cases hpy : p y
    · have hno : ∀ b ∈ ys, p b = false := by
        intro b hb
        by_contra hbne
        exact hy b hb ⟨hpy, by revert hbne; cases p b <;> simp⟩
      have : ys.map (fun y => if p y then f y else y) = ys := by
        calc ys.map (fun y => if p y then f y else y)
            = ys.map id := List.map_congr_left (fun a ha => by simp [hno a ha])
          _ = ys := List.map_id ys
      simp [update_first, hpy, this]
    · simp [update_first, hpy, ih hys]

/-- When at most one position of `l` matches `p`, `delete_one` coincides with
filtering out every matching document. -/
theorem delete_first_eq_filter (p : α → Bool) :
    ∀ l : List α, l.Pairwise (fun a b => ¬(p a = true ∧ p b = true)) →
      delete_first p l = l.filter (fun y => !p y) := by
  intro l hl
  induction l with
  | nil => rfl
  | cons y ys ih =>
    rcases List.pairwise_cons.mp hl with ⟨hy, hys⟩
    by_cases hpy : p y
    · have hno : ∀ b ∈ ys, p b = false := by
        intro b hb
        by_contra hbne
        exact hy b hb ⟨hpy, by revert hbne; cases p b <;> simp⟩
      have : ys.filter (fun y => !p y) = ys :=
        List.filter_eq_self.mpr (fun a ha => by simp [hno a ha])
      simp [delete_first, hpy, this]
    · simp [delete_first, hpy, ih hys]

/-! ### Quotes -/

/-- `FREE_QUOTES_PER_MONTH = 5`. -/
def FREE_QUOTES_PER_MONTH : Nat := 5

/-- `class Quote(BaseModel)` from schemas.py: the request payload accepted by
`POST /quotes` and `PUT /quotes/{id}` (after pydantic validation).  The
client-supplied `total`, `public_token`, `created_by` and `created_at` fields
exist on the model and are part of `model_dump()`. -/
structure QuoteIn where
  contact_id : Option String := none
  company_id : Option String := none
  company_name : Option String := none
  items : List QuoteItem
  currency : String := "USD"
  status : String := "Draft"
  total : Option ℚ := none
  public_token : Option String := none
  created_by : Option String := none
  created_at : Option DateTime := none
deriving DecidableEq, Repr

/-- A quote document as stored in the `quote` collection.  `_id` is the
ObjectId assigned on insert; `created_by`, `public_token` and `created_at` are
BSON slots because `update_quote`'s full `$set` may overwrite the values
written by `create_quote` with the payload's optional strings / null. -/
structure QuoteDoc where
  id : Nat
  contact_id : Option String
  company_id : Option String
  company_name : Option String
  items : List QuoteItem
  currency : String
  status : String
  total : ℚ
  public_token : BId
  created_by : BId
  created_at : Option DateTime
deriving DecidableEq, Repr

/-- The quota filter of `create_quote`:
`{"created_by": ObjectId(user._id), "created_at": {"$gte": start_month}}`.
A BSON `$gte` against a date matches only documents whose field is a date. -/
def inMonthBy (user : Nat) (now : DateTime) (q : QuoteDoc) : Bool :=
  q.created_by == BId.oid user &&
    match q.created_at with
    | some d => dtLE (startOfMonth now) d
    | none => false

/-- `POST /quotes` (`create_quote`): count the caller's quotes created since
the first instant of the current UTC month; fail 402 when the count reaches
the free-tier cap, otherwise insert the document with a recomputed total,
creator reference, creation time and a fresh public share token. -/
def create_quote (payload : QuoteIn) (user : Nat) (now : DateTime)
    (newId : Nat) (tok : String) (quotes : List QuoteDoc) :
    Except Err QuoteDoc × List QuoteDoc :=
  let count := quotes.countP (inMonthBy user now)
  if FREE_QUOTES_PER_MONTH ≤ count then
    (.error ⟨402, "Free tier limit reached: max 5 quotes this month"⟩, quotes)
  else
    let d : QuoteDoc :=
      { id := newId
        contact_id := payload.contact_id
        company_id := payload.company_id
        company_name := payload.company_name
        items := payload.items
        currency := payload.currency
        status := payload.status
        total := compute_quote_total payload.items
        public_token := .str tok
        created_by := .oid user
        created_at := some now }
    (.ok d, quotes ++ [d])

/-- The filter of `GET /quotes` (`list_quotes`): creator scoping plus the
optional status equality filter (added only when `status` is truthy). -/
def quoteQuery (user : Nat) (status : Option String) (q : QuoteDoc) : Bool :=
  q.created_by == BId.oid user &&
    (if truthyStr status then q.status == status.getD "" else true)

/-- `.sort("created_at", -1)`: descending by creation time, BSON nulls after
dates in descending order.  `qDesc a b` says `a` may precede `b`. -/
def qDesc (a b : QuoteDoc) : Prop :=
  (match a.created_at, b.created_at with
   | _, none => true
   | none, some _ => false
   | some x, some y => dtLE y x) = true

instance : DecidableRel qDesc := fun _ _ => decEq _ _

/-- `GET /quotes` (`list_quotes`): the caller's quotes, optionally filtered by
status, ordered by creation time descending, with no limit. -/
def list_quotes (user : Nat) (status : Option String) (quotes : List QuoteDoc) :
    List QuoteDoc :=
  List.insertionSort qDesc (quotes.filter (quoteQuery user status))

/-- The `$set` document of `PUT /quotes/{id}`: the full `model_dump()` of the
payload with `total` recomputed from the submitted items (a client-supplied
total is discarded). -/
def applySetQuote (payload : QuoteIn) (q : QuoteDoc) : QuoteDoc :=
  { q with
    contact_id := payload.contact_id
    company_id := payload.company_id
    company_name := payload.company_name
    items := payload.items
    currency := payload.currency
    status := payload.status
    total := compute_quote_total payload.items
    public_token := BId.ofOptStr payload.public_token
    created_by := BId.ofOptStr payload.created_by
    created_at := payload.created_at }

/-- `PUT /quotes/{id}` (`update_quote`): `update_one` scoped to
`{"_id": id, "created_by": ObjectId(user._id)}`; 404 when nothing matched. -/
def update_quote (qid : Nat) (payload : QuoteIn) (user : Nat)
    (quotes : List QuoteDoc) : Except Err Unit × List QuoteDoc :=
  let r := update_first (fun q => q.id == qid && q.created_by == BId.oid user)
    (applySetQuote payload) quotes
  if r.2 then (.ok (), r.1)
  else (.error ⟨404, "Quote not found"⟩, r.1)

/-- `{"ok": True}`. -/
structure OkResp where
  ok : Bool
deriving DecidableEq, Repr

/-- `DELETE /quotes/{id}` (`delete_quote`): `delete_one` scoped to
`{"_id": id, "created_by": ObjectId(user._id)}`; always returns `{"ok": True}`
with no existence check. -/
def delete_quote (qid : Nat) (user : Nat) (quotes : List QuoteDoc) :
    OkResp × List QuoteDoc :=
  (⟨true⟩, delete_first (fun q => q.id == qid && q.created_by == BId.oid user) quotes)

/-- The data rendered into the public HTML view by `public_quote`: status,
company name, the item rows (name, description, quantity, unit price, tax
rate) and the stored total. -/
structure PublicView where
  status : String
  company_name : Option String
  items : List QuoteItem
  total : ℚ
deriving DecidableEq, Repr

/-- `GET /public/quote/{token}` (`public_quote`): unauthenticated lookup by
`{"public_token": token}` only; 404 when absent; otherwise renders the
document's items and stored total. -/
def public_quote (tok : String) (quotes : List QuoteDoc) :
    Except Err PublicView :=
  match quotes.find? (fun q => q.public_token == BId.str tok) with
  | none => .error ⟨404, "Not found"⟩
  | some d => .ok ⟨d.status, d.company_name, d.items, d.total⟩

/-! ### Auth: register and admin gates -/

/-- `hash_password` is SHA-256 hex in the source; no claim depends on digest
values, so the digest function is embedded as the identity on strings. -/
def hash_password (password : String) : String :=
  password

/-- `class RegisterRequest(BaseModel)`: note the declared default
`role: Literal["Admin", "Employee"] = "Admin"`. -/
structure RegisterRequest where
  name : String
  email : String
  password : String
  role : Role := Role.Admin
deriving DecidableEq, Repr

/-- Pydantic parsing of a register body whose `role` field may be omitted:
an absent role takes the model default `"Admin"`. -/
def mkRegisterRequest (name email password : String) (role : Option Role) :
    RegisterRequest :=
  { name := name, email := email, password := password
    role := role.getD Role.Admin }

/-- A document of the `user` collection. -/
structure UserDoc where
  id : Nat
  name : String
  email : String
  role : Role
  hashed_password : String
  is_active : Bool
  created_at : DateTime
deriving DecidableEq, Repr

/-- A document of the `session` collection. -/
structure SessionDoc where
  user_id : Nat
  token : String
  created_at : DateTime
deriving DecidableEq, Repr

/-- The public user projection `AuthUser`. -/
structure AuthUser where
  id : String
  name : String
  email : String
  role : Role
deriving DecidableEq, Repr

/-- `TokenResponse`. -/
structure TokenResponse where
  token : String
  user : AuthUser
deriving DecidableEq, Repr

/-- `POST /auth/register` (`register`): reject an already-registered email
with a 400 error and no write; otherwise insert the user document, mint a
session, and return the token with the public projection. -/
def register (req : RegisterRequest) (newId : Nat) (tok : String)
    (now : DateTime) (users : List UserDoc) (sessions : List SessionDoc) :
    Except Err TokenResponse × List UserDoc × List SessionDoc :=
  if (users.find? (fun u => u.email == req.email)).isSome then
    (.error ⟨400, "Email already registered"⟩, users, sessions)
  else
    let u : UserDoc :=
      { id := newId, name := req.name, email := req.email, role := req.role
        hashed_password := hash_password req.password, is_active := true
        created_at := now }
    (.ok ⟨tok, ⟨toString newId, req.name, req.email, req.role⟩⟩,
      users ++ [u], sessions ++ [⟨newId, tok, now⟩])

/-- The Admin-only gate used by `list_users`, `create_user` and
`update_settings`: `if user.role != "Admin": raise HTTPException(403, ...)`. -/
def admin_gate (role : Role) : Except Err Unit :=
  if role ≠ Role.Admin then .error ⟨403, "Admins only"⟩ else .ok ()

/-! ### Contacts CSV import -/

/-- A parsed CSV row as produced by `csv.DictReader`: header → cell.
`Row.get` is the dict's `.get(key)` (None when the column is absent). -/
def Row := List (String × String)

/-- `row.get(key)`. -/
def Row.get (r : Row) (k : String) : Option String :=
  (List.find? (fun p => p.1 == k) r).map (fun p => p.2)

/-- A document of the `contact` collection as written by the CSV import
(interactions always start empty). -/
structure ContactDoc where
  name : Option String
  email : Option String
  phone : Option String
  company_name : Option String
  status : String
  notes : Option String
  created_by : Nat
  created_at : DateTime
deriving DecidableEq, Repr

/-- The contact dict built by `import_contacts` for one CSV row:
```
"name":  row.get("name") or row.get("Name"),
"email": row.get("email") or row.get("Email"),
"phone": row.get("phone") or row.get("Phone"),
"company_name": row.get("company") or row.get("Company"),
"status": row.get("status") or "Prospect",
"notes": row.get("notes") or None,
```
-/
def rowToContact (r : Row) (user : Nat) (now : DateTime) : ContactDoc :=
  { name := pyOr (r.get "name") (r.get "Name")
    email := pyOr (r.get "email") (r.get "Email")
    phone := pyOr (r.get "phone") (r.get "Phone")
    company_name := pyOr (r.get "company") (r.get "Company")
    status := pyOrStr (r.get "status") "Prospect"
    notes := if truthyStr (r.get "notes") then r.get "notes" else none
    created_by := user
    created_at := now }

/-- `POST /crm/contacts/import` (`import_contacts`), after CSV decoding: each
row with a truthy name is inserted, the rest are skipped; returns the number
of inserted rows together with the contact collection. -/
def import_contacts (rows : List Row) (user : Nat) (now : DateTime)
    (contacts : List ContactDoc) : Nat × List ContactDoc :=
  rows.foldl
    (fun acc r =>
      let c := rowToContact r user now
      if truthyStr c.name then (acc.1 + 1, acc.2 ++ [c]) else acc)
    (0, contacts)

/-! ### Settings -/

/-- A document of the `settings` collection (`class Settings(BaseModel)`). -/
structure SettingsDoc where
  company_name : Option String
  language : Option String
  theme : Option String
deriving DecidableEq, Repr

/-- The in-code default dict
`{"company_name": None, "language": "en", "theme": "light"}`. -/
def default_settings : SettingsDoc :=
  { company_name := none, language := some "en", theme := some "light" }

/-- `GET /settings` (`get_settings`): `find_one({})` — the first stored
document, or the defaults when the collection is empty. -/
def get_settings (settings : List SettingsDoc) : SettingsDoc :=
  (settings.head?).getD default_settings

/-! ### Tasks -/

/-- `class Task(BaseModel)` from schemas.py: the payload of `POST /tasks` and
`PUT /tasks/{id}`. -/
structure TaskIn where
  project_id : String
  title : String
  description : Option String := none
  assignee_id : Option String := none
  due_date : Option DateTime := none
  priority : String := "Medium"
  status : String := "To Do"
deriving DecidableEq, Repr

/-- A document of the `task` collection. -/
structure TaskDoc where
  id : Nat
  project_id : String
  title : String
  description : Option String
  assignee_id : Option String
  due_date : Option DateTime
  priority : String
  status : String
  created_at : Option DateTime
  updated_at : Option DateTime
deriving DecidableEq, Repr

/-- The `$set`/`$currentDate` effect of `PUT /tasks/{id}` on a matched task
document: full payload replace plus an `updated_at` touch. -/
def applySetTask (payload : TaskIn) (now : DateTime) (t : TaskDoc) : TaskDoc :=
  { t with
    project_id := payload.project_id
    title := payload.title
    description := payload.description
    assignee_id := payload.assignee_id
    due_date := payload.due_date
    priority := payload.priority
    status := payload.status
    updated_at := some now }

/-- `PUT /tasks/{id}` (`update_task`): `update_one` filtered on
`{"_id": id}` only — the authenticated caller `user` is never used in the
filter; 404 when the id is absent. -/
def update_task (tid : Nat) (payload : TaskIn) (user : Nat) (now : DateTime)
    (tasks : List TaskDoc) : Except Err Unit × List TaskDoc :=
  let _ := user
  let r := update_first (fun t => t.id == tid) (applySetTask payload now) tasks
  if r.2 then (.ok (), r.1)
  else (.error ⟨404, "Task not found"⟩, r.1)

/-- `DELETE /tasks/{id}` (`delete_task`): `delete_one` filtered on
`{"_id": id}` only — no creator or assignee scoping; always `{"ok": True}`. -/
def delete_task (tid : Nat) (user : Nat) (tasks : List TaskDoc) :
    OkResp × List TaskDoc :=
  let _ := user
  (⟨true⟩, delete_first (fun t => t.id == tid) tasks)

/-! ### Shared arithmetic lemmas -/

theorem sum_map_add_split (l : List α) (f g : α → ℚ) :
    (l.map f).sum + (l.map g).sum = (l.map (fun x => f x + g x)).sum := by
  induction l with
  | nil => simp
  | cons x xs ih =>
    simp only [List.map_cons, List.sum_cons]
    rw [← ih]
    ring

/-! ### Claims -/

/-- C1: for every list of quote items, the quote's stored total equals
`round(Σ unit_price·quantity·(1 + tax_rate/100), 2)`; the total is recomputed
from the submitted items on both create (`create_quote`) and update
(`applySetQuote`), ignoring any client-supplied total; the two example item
lists yield totals `240` and `35.5`. -/
theorem C1_quote_total :
    (∀ items : List QuoteItem,
      compute_quote_total items
        = pyRound2 ((items.map
            (fun i => i.unit_price * i.quantity * (1 + i.tax_rate / 100))).sum))
  ∧ (∀ (payload : QuoteIn) (user : Nat) (now : DateTime) (newId : Nat)
        (tok : String) (quotes : List QuoteDoc) (d : QuoteDoc)
        (quotes' : List QuoteDoc),
      create_quote payload user now newId tok quotes = (.ok d, quotes') →
        d.total = compute_quote_total payload.items)
  ∧ (∀ (payload : QuoteIn) (q : QuoteDoc),
      (applySetQuote payload q).total = compute_quote_total payload.items)
  ∧ compute_quote_total
      [{ name := "A", unit_price := 100, quantity := 2, tax_rate := 20 }] = 240
  ∧ compute_quote_total
      [{ name := "A", unit_price := 10, quantity := 3, tax_rate := 0 },
       { name := "B", unit_price := 5, quantity := 1, tax_rate := 10 }] = 35.5 := by
  refine ⟨?_, ?_, ?_, ?_, ?_⟩
  · intro items
    show pyRound2 _ = _
    rw [sum_map_add_split]
    congr 1
    exact congrArg List.sum (List.map_congr_left (fun i _ => by ring))
  · intro payload user now newId tok quotes d quotes' h
    unfold create_quote at h
    by_cases hc : FREE_QUOTES_PER_MONTH ≤ quotes.countP (inMonthBy user now)
    · rw [if_pos hc] at h
      exact absurd (congrArg Prod.fst h) (by simp)
    · rw [if_neg hc] at h
      have := congrArg Prod.fst h
      simp only [Except.ok.injEq] at this
      rw [← this]
  · intro payload q
    rfl
  · norm_num [compute_quote_total, pyRound2, bankersRound]
  · norm_num [compute_quote_total, pyRound2, bankersRound]

/-- The quote item and payload of the C1 witness: a client-supplied `total`
of `999` is ignored by `create_quote`. -/
def itemA : QuoteItem :=
  { name := "A", unit_price := 100, quantity := 2, tax_rate := 20 }

def payloadA : QuoteIn := { items := [itemA], total := some 999 }

def docA : QuoteDoc :=
  { id := 7, contact_id := none, company_id := none, company_name := none
    items := [itemA], currency := "USD", status := "Draft"
    total := compute_quote_total [itemA], public_token := .str "tok"
    created_by := .oid 1, created_at := some ⟨100, 0⟩ }

/-- Witness for C1 at a concrete create call. -/
theorem C1_quote_total_witness :
    docA.total = compute_quote_total [itemA]
  ∧ compute_quote_total [itemA] = 240 :=
  ⟨C1_quote_total.2.1 payloadA 1 ⟨100, 0⟩ 7 "tok" [] docA [docA] rfl,
   C1_quote_total.2.2.2.1⟩

/-- C2: a user who already owns `FREE_QUOTES_PER_MONTH` (= 5) or more quotes
created at or after the first instant of the current UTC month gets a 402
error from `create_quote` with no document inserted; a user with fewer than 5
such quotes gets an insert. -/
theorem C2_quota (payload : QuoteIn) (user : Nat) (now : DateTime)
    (newId : Nat) (tok : String) (quotes : List QuoteDoc) :
    (FREE_QUOTES_PER_MONTH ≤ quotes.countP (inMonthBy user now) →
      create_quote payload user now newId tok quotes
        = (.error ⟨402, "Free tier limit reached: max 5 quotes this month"⟩, quotes))
  ∧ (quotes.countP (inMonthBy user now) < FREE_QUOTES_PER_MONTH →
      ∃ d : QuoteDoc,
        create_quote payload user now newId tok quotes = (.ok d, quotes ++ [d])
        ∧ d.created_by = .oid user ∧ d.created_at = some now
        ∧ d.items = payload.items
        ∧ d.total = compute_quote_total payload.items) := by
  constructor
  · intro h
    unfold create_quote
    rw [if_pos h]
  · intro h
    unfold create_quote
    rw [if_neg (Nat.not_le.mpr h)]
    exact ⟨_, rfl, rfl, rfl, rfl, rfl⟩

/-- A quote document owned by user 1, created at offset `n` inside month
`100`, used by the C2 witness store. -/
def qdoc (n : Nat) : QuoteDoc :=
  { id := n, contact_id := none, company_id := none, company_name := none
    items := [], currency := "USD", status := "Draft", total := 0
    public_token := .str ("pt" ++ toString n), created_by := .oid 1
    created_at := some ⟨100, n⟩ }

/-- Five quotes of user 1, all inside month `100`. -/
def q5store : List QuoteDoc := [qdoc 0, qdoc 1, qdoc 2, qdoc 3, qdoc 4]

/-- Witness for C2: with five same-month quotes the sixth create fails 402
and writes nothing; with an empty store the create inserts. -/
theorem C2_quota_witness :
    create_quote payloadA 1 ⟨100, 9⟩ 9 "t2" q5store
      = (.error ⟨402, "Free tier limit reached: max 5 quotes this month"⟩, q5store)
  ∧ (create_quote payloadA 1 ⟨100, 9⟩ 9 "t2" []).2 ≠ [] := by
  refine ⟨(C2_quota payloadA 1 ⟨100, 9⟩ 9 "t2" q5store).1 (by decide), ?_⟩
  obtain ⟨d, hd, -⟩ := (C2_quota payloadA 1 ⟨100, 9⟩ 9 "t2" []).2 (by decide)
  rw [hd]
  simp

/-- C3: for a quote `q` stored with pairwise-distinct ids and a caller `u`
who is not its creator, `update_quote` fails 404 and leaves the collection
unchanged, and `delete_quote` returns `{"ok": True}` while also leaving the
collection unchanged. -/
theorem C3_ownership (q : QuoteDoc) (quotes : List QuoteDoc) (u : Nat)
    (payload : QuoteIn) (hq : q ∈ quotes)
    (hids : quotes.Pairwise (fun a b => a.id ≠ b.id))
    (hown : q.created_by ≠ BId.oid u) :
    update_quote q.id payload u quotes
      = (.error ⟨404, "Quote not found"⟩, quotes)
  ∧ delete_quote q.id u quotes = (⟨true⟩, quotes) := by
  have hpred : ∀ x ∈ quotes,
      (x.id == q.id && x.created_by == BId.oid u) = false := by
    intro x hx
    by_cases hxq : x = q
    · subst hxq
      simp only [Bool.and_eq_false_iff, beq_eq_false_iff_ne, ne_eq]
      exact Or.inr hown
    · have hne : x.id ≠ q.id :=
        List.Pairwise.forall (fun _ _ h => h.symm) hids hx hq hxq
      simp only [Bool.and_eq_false_iff, beq_eq_false_iff_ne, ne_eq]
      exact Or.inl hne
  constructor
  · unfold update_quote
    rw [update_first_of_forall_not _ _ _ hpred]
    rfl
  · unfold delete_quote
    rw [delete_first_of_forall_not _ _ hpred]

/-- A quote document owned by user 2. -/
def docForeign : QuoteDoc :=
  { id := 3, contact_id := none, company_id := none, company_name := none
    items := [], currency := "USD", status := "Draft", total := 0
    public_token := .str "ft", created_by := .oid 2
    created_at := some ⟨100, 0⟩ }

/-- Witness for C3: user 1 can neither update nor delete user 2's quote. -/
theorem C3_ownership_witness :
    update_quote docForeign.id payloadA 1 [docForeign]
      = (.error ⟨404, "Quote not found"⟩, [docForeign])
  ∧ delete_quote docForeign.id 1 [docForeign] = (⟨true⟩, [docForeign]) :=
  C3_ownership docForeign [docForeign] 1 payloadA (List.mem_singleton.mpr rfl)
    (List.pairwise_singleton _ _) (by decide)

/-- C4: a registration whose email is already present in the `user`
collection fails with the duplicate-email error (HTTP 400 in the code, the
spec's Conflict class), leaving the user and session collections unchanged:
no user document and no session is created. -/
theorem C4_register_conflict (req : RegisterRequest) (newId : Nat)
    (tok : String) (now : DateTime) (users : List UserDoc)
    (sessions : List SessionDoc) (h : ∃ u ∈ users, u.email = req.email) :
    register req newId tok now users sessions
      = (.error ⟨400, "Email already registered"⟩, users, sessions) := by
  have hfind : (users.find? (fun u => u.email == req.email)).isSome := by
    rw [List.find?_isSome]
    obtain ⟨u, hu, he⟩ := h
    exact ⟨u, hu, by simp [he]⟩
  unfold register
  rw [if_pos hfind]

/-- An existing user document for the C4 witness. -/
def userBob : UserDoc :=
  { id := 1, name := "Bob", email := "bob@example.com", role := Role.Employee
    hashed_password := "pw", is_active := true, created_at := ⟨100, 0⟩ }

/-- Witness for C4: re-registering `bob@example.com` fails and writes
nothing. -/
theorem C4_register_conflict_witness :
    register ⟨"Bobby", "bob@example.com", "pw2", Role.Admin⟩ 2 "tk" ⟨100, 1⟩
        [userBob] []
      = (.error ⟨400, "Email already registered"⟩, [userBob], []) :=
  C4_register_conflict ⟨"Bobby", "bob@example.com", "pw2", Role.Admin⟩ 2 "tk"
    ⟨100, 1⟩ [userBob] [] ⟨userBob, List.mem_singleton.mpr rfl, rfl⟩

/-- C9: a registration request that omits `role` is parsed with the model
default `"Admin"` (not `"Employee"`); registering it stores an Admin user,
returns an Admin projection, and that role passes the Admin-only gate used by
`list_users`, `create_user` and `update_settings`. -/
theorem C9_default_role (n e p : String) (newId : Nat) (tok : String)
    (now : DateTime) (users : List UserDoc) (sessions : List SessionDoc)
    (h : ∀ u ∈ users, u.email ≠ e) :
    (mkRegisterRequest n e p none).role = Role.Admin
  ∧ (mkRegisterRequest n e p none).role ≠ Role.Employee
  ∧ register (mkRegisterRequest n e p none) newId tok now users sessions
      = (.ok ⟨tok, ⟨toString newId, n, e, Role.Admin⟩⟩,
          users ++ [{ id := newId, name := n, email := e, role := Role.Admin
                      hashed_password := hash_password p, is_active := true
                      created_at := now }],
          sessions ++ [⟨newId, tok, now⟩])
  ∧ admin_gate Role.Admin = .ok () := by
  refine ⟨rfl, fun hcontra => Role.noConfusion hcontra, ?_, rfl⟩
  have hfind : (users.find? (fun u => u.email == e)).isSome = false := by
    rw [Bool.eq_false_iff, ne_eq, List.find?_isSome]
    rintro ⟨u, hu, he⟩
    exact h u hu (by simpa using he)
  unfold register
  rw [if_neg (by simp [mkRegisterRequest, hfind])]
  rfl

/-- Witness for C9 on an empty user store. -/
theorem C9_default_role_witness :
    (mkRegisterRequest "Ann" "ann@example.com" "s" none).role = Role.Admin
  ∧ (mkRegisterRequest "Ann" "ann@example.com" "s" none).role ≠ Role.Employee
  ∧ register (mkRegisterRequest "Ann" "ann@example.com" "s" none) 5 "tk5"
        ⟨100, 2⟩ [] []
      = (.ok ⟨"tk5", ⟨toString 5, "Ann", "ann@example.com", Role.Admin⟩⟩,
          [] ++ [{ id := 5, name := "Ann", email := "ann@example.com"
                   role := Role.Admin, hashed_password := hash_password "s"
                   is_active := true, created_at := ⟨100, 2⟩ }],
          [] ++ [⟨5, "tk5", ⟨100, 2⟩⟩])
  ∧ admin_gate Role.Admin = .ok () :=
  C9_default_role "Ann" "ann@example.com" "s" 5 "tk5" ⟨100, 2⟩ [] []
    (fun u hu => absurd hu (List.not_mem_nil u))

/-- A CSV row has a "good" (truthy) name exactly when
`row.get("name") or row.get("Name")` is truthy. -/
def goodRow (r : Row) : Bool :=
  truthyStr (pyOr (r.get "name") (r.get "Name"))

theorem import_contacts_foldl (user : Nat) (now : DateTime) :
    ∀ (rows : List Row) (k : Nat) (contacts : List ContactDoc),
      rows.foldl
        (fun acc r =>
          let c := rowToContact r user now
          if truthyStr c.name then (acc.1 + 1, acc.2 ++ [c]) else acc)
        (k, contacts)
      = (k + rows.countP goodRow,
         contacts ++ (rows.filter goodRow).map (fun r => rowToContact r user now)) := by
  intro rows
  induction rows with
  | nil => intro k contacts; simp
  | cons r rs ih =>
    intro k contacts
    rw [List.foldl_cons]
    show List.foldl _
      (if goodRow r then (k + 1, contacts ++ [rowToContact r user now])
       else (k, contacts)) rs = _
    by_cases hr : goodRow r
    · rw [if_pos hr, ih]
      refine Prod.ext ?_ ?_ <;> simp [hr, List.countP_cons, List.filter_cons]
      omega
    · rw [if_neg hr, ih]
      refine Prod.ext ?_ ?_ <;> simp [hr, List.countP_cons, List.filter_cons]

/-- C5 counterexample: the claim says header matching is tolerant across case
variants of `status`, but `import_contacts` reads only the lowercase
`"status"` header — a row carrying `("Status", "Client")` is stored with the
default status `"Prospect"`, not `"Client"`. -/
theorem C5_counterexample :
    Row.get [("name", "Alice"), ("Status", "Client")] "Status" = some "Client"
  ∧ (rowToContact [("name", "Alice"), ("Status", "Client")] 1 ⟨100, 0⟩).status
      = "Prospect"
  ∧ ¬((rowToContact [("name", "Alice"), ("Status", "Client")] 1 ⟨100, 0⟩).status
      = "Client") :=
  ⟨rfl, rfl, by decide⟩

/-- C5 (amended): the import defaults a missing/empty lowercase `status`
to `"Prospect"`, matches name/email/phone/company on their lowercase and
Capitalized headers only (status and notes on the exact lowercase header
only), skips every row with no truthy name, inserts exactly one contact per
remaining row, and returns that number; a 3-row file with one empty-name row
yields `inserted = 2`. -/
theorem C5_import_amended (rows : List Row) (user : Nat) (now : DateTime)
    (contacts : List ContactDoc) :
    (import_contacts rows user now contacts).1 = rows.countP goodRow
  ∧ (import_contacts rows user now contacts).2
      = contacts ++ (rows.filter goodRow).map (fun r => rowToContact r user now)
  ∧ (∀ r : Row, (rowToContact r user now).status = pyOrStr (r.get "status") "Prospect")
  ∧ (∀ r : Row, r.get "status" = none →
      (rowToContact r user now).status = "Prospect")
  ∧ (∀ r : Row, (rowToContact r user now).name
      = pyOr (r.get "name") (r.get "Name"))
  ∧ (∀ r : Row, (rowToContact r user now).email
      = pyOr (r.get "email") (r.get "Email"))
  ∧ (import_contacts
        [[("name", "A")], [("name", ""), ("email", "x@y.z")], [("Name", "B")]]
        user now []).1 = 2 := by
  have hfold := import_contacts_foldl user now rows 0 contacts
  refine ⟨?_, ?_, fun r => rfl, ?_, fun r => rfl, fun r => rfl, ?_⟩
  · unfold import_contacts
    rw [hfold]
    exact Nat.zero_add _
  · unfold import_contacts
    rw [hfold]
  · intro r hr
    show pyOrStr (r.get "status") "Prospect" = "Prospect"
    rw [hr]
    rfl
  · unfold import_contacts
    rw [import_contacts_foldl user now _ 0 []]
    rfl

/-- Witness for C5 (amended) at the concrete 3-row file. -/
theorem C5_import_amended_witness :
    (import_contacts
        [[("name", "A")], [("name", ""), ("email", "x@y.z")], [("Name", "B")]]
        1 ⟨100, 0⟩ []).1 = 2 :=
  (C5_import_amended [] 1 ⟨100, 0⟩ []).2.2.2.2.2.2

/-- C6: the public quote view looks up by share token only — a token carried
by no stored quote yields 404; a token carried by a (unique) stored quote
renders exactly that quote's items and stored total, and that same document
is what the owner's authenticated `list_quotes` view returns. -/
theorem C6_public_view (t : String) (quotes : List QuoteDoc) :
    ((∀ q ∈ quotes, q.public_token ≠ BId.str t) →
      public_quote t quotes = .error ⟨404, "Not found"⟩)
  ∧ (∀ q ∈ quotes, q.public_token = BId.str t →
      (∀ q' ∈ quotes, q'.public_token = BId.str t → q' = q) →
      public_quote t quotes = .ok ⟨q.status, q.company_name, q.items, q.total⟩
        ∧ ∀ u : Nat, q.created_by = BId.oid u → q ∈ list_quotes u none quotes) := by
  constructor
  · intro h
    have hfind : quotes.find? (fun q => q.public_token == BId.str t) = none := by
      rw [List.find?_eq_none]
      intro q hq
      simpa using h q hq
    unfold public_quote
    rw [hfind]
  · intro q hq htok huniq
    have hfind : quotes.find? (fun q => q.public_token == BId.str t) = some q := by
      cases hf : quotes.find? (fun q => q.public_token == BId.str t) with
      | none =>
        exact absurd (by simpa using List.find?_eq_none.mp hf q hq) (by simp [htok])
      | some q' =>
        have hmem : q' ∈ quotes := List.mem_of_find?_eq_some hf
        have hpt : q'.public_token = BId.str t := by
          simpa using List.find?_some hf
        rw [huniq q' hmem hpt]
    refine ⟨by unfold public_quote; rw [hfind], ?_⟩
    intro u hu
    unfold list_quotes
    rw [List.mem_insertionSort, List.mem_filter]
    exact ⟨hq, by simp [quoteQuery, truthyStr, hu]⟩

/-- A quote of user 1 carrying the public token "cap". -/
def docShared : QuoteDoc :=
  { id := 11, contact_id := none, company_id := none, company_name := some "Acme"
    items := [itemA], currency := "USD", status := "Sent"
    total := 240, public_token := .str "cap", created_by := .oid 1
    created_at := some ⟨100, 4⟩ }

/-- Witness for C6: an unknown token 404s; the issued token renders
`docShared`'s items and total, which the owner's list also contains. -/
theorem C6_public_view_witness :
    public_quote "nope" [docShared] = .error ⟨404, "Not found"⟩
  ∧ public_quote "cap" [docShared]
      = .ok ⟨docShared.status, docShared.company_name, docShared.items, docShared.total⟩
  ∧ docShared ∈ list_quotes 1 none [docShared] := by
  have h1 := (C6_public_view "nope" [docShared]).1 (by decide)
  have h2 := (C6_public_view "cap" [docShared]).2 docShared
    (List.mem_singleton.mpr rfl) rfl
    (fun q' hq' _ => List.mem_singleton.mp hq')
  exact ⟨h1, h2.1, h2.2 1 rfl⟩

/-- C7: with no stored settings document, `get_settings` returns exactly the
defaults `{company_name: None, language: "en", theme: "light"}`; with a
stored document, that document is returned instead. -/
theorem C7_settings (d : SettingsDoc) (l : List SettingsDoc) :
    get_settings []
      = { company_name := none, language := some "en", theme := some "light" }
  ∧ get_settings (d :: l) = d :=
  ⟨rfl, rfl⟩

theorem dtLE_total (a b : DateTime) : dtLE a b = true ∨ dtLE b a = true := by
  simp only [dtLE, Bool.or_eq_true, Bool.and_eq_true, decide_eq_true_eq,
    Nat.lt_irrefl, beq_iff_eq]
  omega

theorem dtLE_trans {a b c : DateTime} (h1 : dtLE a b = true)
    (h2 : dtLE b c = true) : dtLE a c = true := by
  simp only [dtLE, Bool.or_eq_true, Bool.and_eq_true, decide_eq_true_eq,
    beq_iff_eq] at h1 h2 ⊢
  omega

instance : IsTotal QuoteDoc qDesc := by
  constructor
  intro a b
  unfold qDesc
  cases ha : a.created_at with
  | none => cases b.created_at <;> simp
  | some x =>
    cases hb : b.created_at with
    | none => simp
    | some y => simpa using dtLE_total y x

instance : IsTrans QuoteDoc qDesc := by
  constructor
  intro a b c h1 h2
  unfold qDesc at h1 h2 ⊢
  cases ha : a.created_at with
  | none =>
    cases hc : c.created_at with
    | none => simp
    | some z =>
      rw [ha] at h1
      cases hb : b.created_at with
      | none => rw [hb, hc] at h2; simp at h2
      | some y => rw [hb] at h1; simp at h1
  | some x =>
    cases hc : c.created_at with
    | none => simp
    | some z =>
      rw [ha] at h1
      rw [hc] at h2
      cases hb : b.created_at with
      | none => rw [hb] at h2; simp at h2
      | some y =>
        rw [hb] at h1
        rw [hb] at h2
        simp only at h1 h2 ⊢
        exact dtLE_trans h2 h1

/-- C8: `list_quotes` returns exactly the caller's quotes (every returned
document has `created_by == caller`, and every stored quote of the caller
that passes the optional status-equality filter is returned — no pagination
limit), ordered by creation time descending. -/
theorem C8_list_quotes (u : Nat) (st : Option String) (quotes : List QuoteDoc) :
    (∀ d ∈ list_quotes u st quotes, d.created_by = BId.oid u)
  ∧ (∀ s, st = some s → s ≠ "" →
      ∀ d ∈ list_quotes u st quotes, d.status = s)
  ∧ (∀ d, d ∈ list_quotes u st quotes ↔
      (d ∈ quotes ∧ d.created_by = BId.oid u
        ∧ ∀ s, st = some s → s ≠ "" → d.status = s))
  ∧ List.Sorted qDesc (list_quotes u st quotes)
  ∧ (list_quotes u st quotes).Perm (quotes.filter (quoteQuery u st)) := by
  have hquery : ∀ d : QuoteDoc, quoteQuery u st d = true ↔
      (d.created_by = BId.oid u ∧ ∀ s, st = some s → s ≠ "" → d.status = s) := by
    intro d
    cases st with
    | none => simp [quoteQuery, truthyStr]
    | some s =>
      by_cases hs : s = ""
      · subst hs
        simp [quoteQuery, truthyStr]
      · simp only [quoteQuery, truthyStr, Option.getD_some, Bool.and_eq_true,
          beq_iff_eq]
        constructor
        · rintro ⟨h1, h2⟩
          refine ⟨h1, ?_⟩
          rintro s' hs' -
          cases hs'
          revert h2
          simp [hs]
        · rintro ⟨h1, h2⟩
          refine ⟨h1, ?_⟩
          have := h2 s rfl hs
          simp [hs, this]

  have hmem : ∀ d, d ∈ list_quotes u st quotes ↔
      (d ∈ quotes ∧ d.created_by = BId.oid u
        ∧ ∀ s, st = some s → s ≠ "" → d.status = s) := by
    intro d
    unfold list_quotes
    rw [List.mem_insertionSort, List.mem_filter, hquery d]
  refine ⟨?_, ?_, hmem, ?_, ?_⟩
  · intro d hd
    exact ((hmem d).mp hd).2.1
  · intro s hs hne d hd
    exact ((hmem d).mp hd).2.2 s hs hne
  · exact List.sorted_insertionSort qDesc _
  · exact List.perm_insertionSort qDesc _

/-- Quotes of users 1 and 2 for the C8 witness. -/
def qMix : List QuoteDoc :=
  [qdoc 0, docForeign, qdoc 1]

/-- Witness for C8: on a mixed store, user 1's listing contains exactly
user 1's quotes, sorted descending. -/
theorem C8_list_quotes_witness :
    (∀ d ∈ list_quotes 1 none qMix, d.created_by = BId.oid 1)
  ∧ (qdoc 0 ∈ list_quotes 1 none qMix)
  ∧ ¬(docForeign ∈ list_quotes 1 none qMix)
  ∧ List.Sorted qDesc (list_quotes 1 none qMix) := by
  obtain ⟨h1, -, h3, h4, -⟩ := C8_list_quotes 1 none qMix
  refine ⟨h1, ?_, ?_, h4⟩
  · exact (h3 (qdoc 0)).mpr ⟨by simp [qMix], rfl, by intro s hs; cases hs⟩
  · intro hmem
    have := ((h3 docForeign).mp hmem).2.1
    simp [docForeign] at this

/-- C10: task update and delete apply no ownership or assignee scoping: for a
stored task `t` (pairwise-distinct ids) and any authenticated users `u`, `u'`,
the results are identical for `u` and `u'`; `update_task t.id` succeeds and
replaces `t` with the new payload (plus the `updated_at` touch), and
`delete_task t.id` removes `t` and returns `{"ok": True}` — unlike quotes,
whose update/delete filters are creator-scoped. -/
theorem C10_tasks_unscoped (t : TaskDoc) (tasks : List TaskDoc)
    (u u' : Nat) (payload : TaskIn) (now : DateTime)
    (ht : t ∈ tasks) (hids : tasks.Pairwise (fun a b => a.id ≠ b.id)) :
    update_task t.id payload u now tasks = update_task t.id payload u' now tasks
  ∧ delete_task t.id u tasks = delete_task t.id u' tasks
  ∧ update_task t.id payload u now tasks
      = (.ok (), tasks.map
          (fun x => if x.id == t.id then applySetTask payload now x else x))
  ∧ applySetTask payload now t ∈ (update_task t.id payload u now tasks).2
  ∧ delete_task t.id u tasks
      = (⟨true⟩, tasks.filter (fun x => !(x.id == t.id)))
  ∧ t ∉ (delete_task t.id u tasks).2 := by
  have hpair : tasks.Pairwise
      (fun a b => ¬((a.id == t.id) = true ∧ (b.id == t.id) = true)) := by
    refine hids.imp ?_
    rintro a b hab ⟨ha, hb⟩
    exact hab (by rw [beq_iff_eq] at ha hb; rw [ha, hb])
  have hflag : (update_first (fun x => x.id == t.id)
      (applySetTask payload now) tasks).2 = true :=
    update_first_flag_of_mem _ _ tasks t ht (by simp)
  have hupd : update_task t.id payload u now tasks
      = (.ok (), tasks.map
          (fun x => if x.id == t.id then applySetTask payload now x else x)) := by
    unfold update_task
    rw [show (update_first (fun x => x.id == t.id)
          (applySetTask payload now) tasks)
        = ((update_first (fun x => x.id == t.id)
            (applySetTask payload now) tasks).1,
           (update_first (fun x => x.id == t.id)
            (applySetTask payload now) tasks).2) from rfl,
      hflag, update_first_eq_map _ _ tasks hpair]
    rfl
  have hdel : delete_task t.id u tasks
      = (⟨true⟩, tasks.filter (fun x => !(x.id == t.id))) := by
    unfold delete_task
    rw [delete_first_eq_filter _ tasks hpair]
  refine ⟨rfl, rfl, hupd, ?_, hdel, ?_⟩
  · rw [hupd]
    have := List.mem_map_of_mem
      (fun x => if x.id == t.id then applySetTask payload now x else x) ht
    simpa using this
  · rw [hdel]
    intro hmem
    have := (List.mem_filter.mp hmem).2
    simp at this

/-- A stored task for the C10 witness. -/
def taskDoc0 : TaskDoc :=
  { id := 21, project_id := "p1", title := "T", description := none
    assignee_id := some "someone", due_date := none, priority := "Medium"
    status := "To Do", created_at := some ⟨100, 3⟩, updated_at := none }

def taskPayload : TaskIn :=
  { project_id := "p1", title := "T2", status := "In Progress" }

/-- Witness for C10: two different callers get identical results, the update
replaces the task, and the delete removes it. -/
theorem C10_tasks_unscoped_witness :
    update_task taskDoc0.id taskPayload 1 ⟨100, 7⟩ [taskDoc0]
      = update_task taskDoc0.id taskPayload 2 ⟨100, 7⟩ [taskDoc0]
  ∧ update_task taskDoc0.id taskPayload 1 ⟨100, 7⟩ [taskDoc0]
      = (.ok (), [taskDoc0].map
          (fun x => if x.id == taskDoc0.id
            then applySetTask taskPayload ⟨100, 7⟩ x else x))
  ∧ taskDoc0 ∉ (delete_task taskDoc0.id 1 [taskDoc0]).2 := by
  obtain ⟨h1, -, h3, -, -, h6⟩ := C10_tasks_unscoped taskDoc0 [taskDoc0] 1 2
    taskPayload ⟨100, 7⟩ (List.mem_singleton.mpr rfl) (List.pairwise_singleton _ _)
  exact ⟨h1, h3, h6⟩

end SMB
